import Mathlib

/-!
# Brain Wrangler — verified model of the Pomodoro timer core

A shallow embedding of the timer state machine, task tracker, session log
and insights aggregation of the `brain-wrangler-app` repository
(`src/store/index.ts`, `src/utils/time.ts`, InsightsPage accuracy code),
together with theorems settling the specification claims about them.

Conventions of the embedding:
* JavaScript numbers that hold integral values (timestamps in milliseconds,
  seconds, counters) become `Int` or `Nat`.
* `Date.now()` becomes an explicit `now : Int` parameter; each store action
  reads the clock once per invocation.
* `Math.floor(x / 1000)` on an integer `x` becomes `Int.fdiv x 1000`
  (floor division, like JS `Math.floor` on the real quotient).
* `uuidv4()` becomes an explicit `newId : String` parameter.
* Mutations of the zustand/immer draft become pure functions `State → State`.
-/

namespace BrainWrangler

/-- `TimerMode` from `src/types/index.ts`: `'work' | 'shortBreak' | 'longBreak'`. -/
inductive TimerMode where
  | work
  | shortBreak
  | longBreak
deriving DecidableEq, Repr

/-- `TimerStatus` from `src/types/index.ts`: `'idle' | 'running' | 'paused'`. -/
inductive TimerStatus where
  | idle
  | running
  | paused
deriving DecidableEq, Repr

/-- `TaskStatus` from `src/types/index.ts`: `'pending' | 'inProgress' | 'completed'`. -/
inductive TaskStatus where
  | pending
  | inProgress
  | completed
deriving DecidableEq, Repr

/-- `TimerSettings` from `src/types/index.ts`. Durations are minutes,
`longBreakInterval` a count of pomodoros; all are non-negative integers. -/
structure TimerSettings where
  workDuration : Nat
  shortBreakDuration : Nat
  longBreakDuration : Nat
  longBreakInterval : Nat
  autoStartBreaks : Bool
  autoStartWork : Bool
deriving DecidableEq, Repr

/-- `Task` from `src/types/index.ts`. -/
structure Task where
  id : String
  title : String
  description : String
  estimatedPomodoros : Nat
  completedPomodoros : Nat
  status : TaskStatus
  createdAt : Int
  completedAt : Option Int
  order : Int
deriving DecidableEq, Repr

/-- `TimerSession` from `src/types/index.ts` (log record). `taskId` is
`string | null` in the source, hence `Option String` here. -/
structure TimerSession where
  id : String
  mode : TimerMode
  taskId : Option String
  startedAt : Int
  completedAt : Int
  duration : Nat
  wasCompleted : Bool
deriving DecidableEq, Repr

/-- The slice of the zustand store state (`AppStore` in `src/store/index.ts`)
that the timer, task and session actions read and write. -/
structure AppState where
  status : TimerStatus
  mode : TimerMode
  remainingSeconds : Int
  currentTaskId : Option String
  pomodorosInSession : Nat
  startTime : Option Int
  totalDuration : Int
  settings : TimerSettings
  tasks : List Task
  sessions : List TimerSession
deriving DecidableEq, Repr

/-- `getDurationForMode` from `src/utils/time.ts`: the configured duration of a
mode, in seconds (`minutes * 60`). -/
def getDurationForMode (mode : TimerMode) (settings : TimerSettings) : Nat :=
  match mode with
  | .work => settings.workDuration * 60
  | .shortBreak => settings.shortBreakDuration * 60
  | .longBreak => settings.longBreakDuration * 60

/-- `getNextMode` from `src/utils/time.ts`: the mode that follows a completed
interval. -/
def getNextMode (currentMode : TimerMode) (pomodorosCompleted : Nat)
    (longBreakInterval : Nat) : TimerMode :=
  if currentMode = .work then
    if pomodorosCompleted > 0 && pomodorosCompleted % longBreakInterval = 0 then
      .longBreak
    else
      .shortBreak
  else
    .work

/-- Elapsed whole seconds since the anchor:
`Math.floor((Date.now() - state.startTime) / 1000)`. -/
def elapsedSeconds (now startTime : Int) : Int :=
  (now - startTime).fdiv 1000

/-- `startTimer` from `src/store/index.ts` (lines 111–116): unconditionally set
`status = RUNNING`, anchor `startTime = now`, and `totalDuration =
remainingSeconds`. -/
def startTimer (st : AppState) (now : Int) : AppState :=
  { st with
    status := .running
    startTime := some now
    totalDuration := st.remainingSeconds }

/-- `pauseTimer` from `src/store/index.ts` (lines 118–127): recompute
`remainingSeconds` from the anchor when running, then set `status = PAUSED` and
clear the anchor — unconditionally. -/
def pauseTimer (st : AppState) (now : Int) : AppState :=
  let st' : AppState :=
    match st.startTime with
    | some s =>
        if st.status = .running then
          { st with remainingSeconds := max 0 (st.totalDuration - elapsedSeconds now s) }
        else st
    | none => st
  { st' with status := .paused, startTime := none }

/-- `resetTimer` from `src/store/index.ts` (lines 129–147). -/
def resetTimer (st : AppState) : AppState :=
  let duration : Int := (getDurationForMode st.mode st.settings : Nat)
  { st with
    status := .idle
    startTime := none
    remainingSeconds := duration
    totalDuration := duration }

/-- `tick` from `src/store/index.ts` (lines 149–172): while running, recompute
`remainingSeconds` from the anchor; on reaching zero, go idle and clear the
anchor. A no-op when not running or when the anchor is null. -/
def tick (st : AppState) (now : Int) : AppState :=
  if st.status ≠ .running then st
  else
    match st.startTime with
    | none => st
    | some s =>
        let newRemaining := max 0 (st.totalDuration - elapsedSeconds now s)
        if newRemaining > 0 then
          { st with remainingSeconds := newRemaining }
        else
          { st with remainingSeconds := 0, status := .idle, startTime := none }

/-- `syncTimer` from `src/store/index.ts` (lines 174–181): the same
recomputation as `tick`, without the zero-reached status transition. -/
def syncTimer (st : AppState) (now : Int) : AppState :=
  if st.status = .running then
    match st.startTime with
    | some s =>
        { st with remainingSeconds := max 0 (st.totalDuration - elapsedSeconds now s) }
    | none => st
  else st

/-- `setMode` from `src/store/index.ts` (lines 183–202). -/
def setMode (st : AppState) (mode : TimerMode) : AppState :=
  let duration : Int := (getDurationForMode mode st.settings : Nat)
  { st with
    mode := mode
    status := .idle
    startTime := none
    remainingSeconds := duration
    totalDuration := duration }

/-- `assignTask` from `src/store/index.ts` (lines 204–207). -/
def assignTask (st : AppState) (taskId : Option String) : AppState :=
  { st with currentTaskId := taskId }

/-- Update the first element satisfying `p` (the effect of
`array.find(...)` followed by a mutation of the found element). -/
def updateFirst (p : α → Bool) (f : α → α) : List α → List α
  | [] => []
  | x :: xs => if p x then f x :: xs else x :: updateFirst p f xs

/-- The mutation `completePomodoro` applies to an assigned task:
`completedPomodoros += 1`, and `PENDING → IN_PROGRESS`. -/
def bumpTask (t : Task) : Task :=
  { t with
    completedPomodoros := t.completedPomodoros + 1
    status := if t.status = .pending then .inProgress else t.status }

/-- The session record built at the top of `completePomodoro`
(`src/store/index.ts` lines 213–220): always `wasCompleted = true` with the
full configured duration, `startedAt` back-dated by that duration. -/
def sessionRecord (st : AppState) (now : Int) (newId : String) : TimerSession :=
  { id := newId
    mode := st.mode
    taskId := st.currentTaskId
    startedAt := now - (getDurationForMode st.mode st.settings : Nat) * 1000
    completedAt := now
    duration := getDurationForMode st.mode st.settings
    wasCompleted := true }

/-- `completePomodoro` from `src/store/index.ts` (lines 209–291): append one
session record; after a Work interval, bump the cycle counter and the assigned
task and enter a break (long when the counter is a positive multiple of
`longBreakInterval`); after a break, return to Work, resetting the cycle
counter when the break was a long one. Auto-start settings decide whether the
next interval starts running immediately. -/
def completePomodoro (st : AppState) (now : Int) (newId : String) : AppState :=
  let st1 := { st with sessions := st.sessions ++ [sessionRecord st now newId] }
  if st.mode = .work then
    let pomos := st.pomodorosInSession + 1
    let tasks' :=
      match st.currentTaskId with
      | some tid => updateFirst (fun t => t.id = tid) bumpTask st1.tasks
      | none => st1.tasks
    let shouldTakeLongBreak :=
      pomos > 0 && pomos % st.settings.longBreakInterval = 0
    let nextMode : TimerMode := if shouldTakeLongBreak then .longBreak else .shortBreak
    let duration : Int := (getDurationForMode nextMode st.settings : Nat)
    { st1 with
      pomodorosInSession := pomos
      tasks := tasks'
      mode := nextMode
      remainingSeconds := duration
      totalDuration := duration
      status := if st.settings.autoStartBreaks then .running else .idle
      startTime := if st.settings.autoStartBreaks then some now else none }
  else
    let duration : Int := (st.settings.workDuration * 60 : Nat)
    { st1 with
      mode := .work
      remainingSeconds := duration
      totalDuration := duration
      pomodorosInSession :=
        if st.mode = .longBreak then 0 else st1.pomodorosInSession
      status := if st.settings.autoStartWork then .running else .idle
      startTime := if st.settings.autoStartWork then some now else none }

/-! ## Task tracker operations -/

/-- Resolution of a JS `splice` index argument against an array of length
`len`: negative indices count from the end (clamped at 0), non-negative ones
are clamped at `len`. -/
def spliceIndex (i : Int) (len : Nat) : Nat :=
  if i < 0 then (max ((len : Int) + i) 0).toNat else min i.toNat len

/-- Renumber the `order` field of every task to its position
(`tasks.forEach((task, index) => { task.order = index })`). -/
def renumberOrders (tasks : List Task) : List Task :=
  tasks.enum.map (fun p => { p.2 with order := (p.1 : Int) })

/-- `reorderTasks` from `src/store/index.ts` (lines 344–351), with JS `splice`
semantics made explicit. When `splice(startIndex, 1)` removes an element
(the resolved start index is in range), the element is re-inserted at the
resolved end index and all `order` fields are renumbered. When it removes
nothing (resolved start index = length, i.e. `startIndex ≥ length` or the list
is empty), `removed` is `undefined`; it is still inserted, and the subsequent
`task.order = index` on that `undefined` element throws a `TypeError`, modelled
as `Except.error ()`. -/
def reorderTasks (tasks : List Task) (startIndex endIndex : Int) :
    Except Unit (List Task) :=
  let len := tasks.length
  let s := spliceIndex startIndex len
  if h : s < len then
    let removed := tasks.get ⟨s, h⟩
    let rest := tasks.eraseIdx s
    let e := spliceIndex endIndex rest.length
    Except.ok (renumberOrders (rest.insertIdx e removed))
  else
    Except.error ()

/-! ## Session log and insights aggregation

`getDailyStats` uses date-fns `subDays` / `startOfDay` / `endOfDay` /
`isWithinInterval` / `format` over local time. The embedding abstracts the
local calendar as epoch-aligned days of `86400000` ms: `startOfDay` floors to
a day boundary, `endOfDay` is the last millisecond of the day, and the
formatted `yyyy-MM-dd` string is abstracted as the day number. -/

def msPerDay : Int := 86400000

/-- date-fns `startOfDay`, on the abstract epoch-aligned calendar. -/
def startOfDay (t : Int) : Int := t.fdiv msPerDay * msPerDay

/-- date-fns `endOfDay`: the last millisecond of the day (23:59:59.999). -/
def endOfDay (t : Int) : Int := startOfDay t + (msPerDay - 1)

/-- date-fns `subDays`. -/
def subDays (t : Int) (i : Nat) : Int := t - (i : Int) * msPerDay

/-- The day an instant belongs to; abstraction of `format(date, 'yyyy-MM-dd')`. -/
def dayNumber (t : Int) : Int := t.fdiv msPerDay

/-- date-fns `isWithinInterval`: inclusive on both ends. -/
def isWithinInterval (t lo hi : Int) : Bool := lo ≤ t && t ≤ hi

/-- `DailyStats` from `src/types/index.ts`, with the `date` string abstracted
as the day number. -/
structure DailyStats where
  date : Int
  completedPomodoros : Nat
  totalWorkMinutes : Nat
  tasksCompleted : Nat
deriving DecidableEq, Repr

/-- JS `Math.round` on a non-negative exact quotient `n / d`: half-values
round up (`Math.round(x) = ⌊x + 1/2⌋` for `x ≥ 0`). -/
def jsRoundDiv (n d : Nat) : Nat := (2 * n + d) / (2 * d)

/-- JS `array.filter(Boolean)` over `(string | null)[]`: drops `null` and the
falsy empty string. -/
def truthyStrings (l : List (Option String)) : List String :=
  l.filterMap (fun o =>
    match o with
    | some s => if s = "" then none else some s
    | none => none)

/-- The loop body of `getDailyStats` (`src/store/index.ts` lines 406–433) for
offset `i` days before today: filter the day's completed Work sessions and
aggregate. `new Set(...).size` on the truthy task ids becomes
`List.dedup.length`. -/
def dayStatFor (sessions : List TimerSession) (now : Int) (i : Nat) : DailyStats :=
  let date := subDays now i
  let dayStart := startOfDay date
  let dayEnd := endOfDay date
  let daySessions := sessions.filter (fun s =>
    s.wasCompleted && s.mode == TimerMode.work &&
      isWithinInterval s.startedAt dayStart dayEnd)
  { date := dayNumber date
    completedPomodoros := daySessions.length
    totalWorkMinutes := jsRoundDiv (daySessions.map (·.duration)).sum 60
    tasksCompleted := (truthyStrings (daySessions.map (·.taskId))).dedup.length }

/-- `getDailyStats` from `src/store/index.ts` (lines 402–436): one entry per
offset `i = 0, …, days-1`, pushed today-first and reversed at the end. -/
def getDailyStats (sessions : List TimerSession) (now : Int) (days : Nat) :
    List DailyStats :=
  ((List.range days).map (dayStatFor sessions now)).reverse

/-! ## Estimate accuracy (InsightsPage) -/

/-- A task together with the `accuracy` and `overUnder` fields the
InsightsPage `map` adds to it. -/
structure TaskWithAccuracy where
  task : Task
  accuracy : Nat
  overUnder : Int
deriving DecidableEq, Repr

/-- `Math.round((estimatedPomodoros / completedPomodoros) * 100)`, computed
exactly. -/
def accuracyPercent (est completed : Nat) : Nat :=
  jsRoundDiv (est * 100) completed

/-- The numeric sort key of the InsightsPage comparator
`(a, b) => b.completedAt! - a.completedAt!`; JS coerces `null` to `0`. -/
def completedAtKey (t : Task) : Int := t.completedAt.getD 0

/-- `tasksWithAccuracy` from the InsightsPage: completed tasks with at least
one completed pomodoro, annotated with `accuracy` (capped at 200) and
`overUnder`, sorted by `completedAt` descending, first five kept. -/
def tasksWithAccuracy (tasks : List Task) : List TaskWithAccuracy :=
  let completedTasks := tasks.filter (fun t => t.status == TaskStatus.completed)
  let withAcc := (completedTasks.filter (fun t => t.completedPomodoros > 0)).map
    (fun t =>
      { task := t
        accuracy := min (accuracyPercent t.estimatedPomodoros t.completedPomodoros) 200
        overUnder := (t.completedPomodoros : Int) - (t.estimatedPomodoros : Int) })
  (withAcc.mergeSort (fun a b => completedAtKey b.task ≤ completedAtKey a.task)).take 5

/-- The three-way classification the InsightsPage renders: `80 ≤ a ≤ 120` is
a good estimate, `a < 80` underestimated, `a > 120` overestimated. -/
inductive EstimateClass where
  | good
  | underestimated
  | overestimated
deriving DecidableEq, Repr

/-- The InsightsPage accuracy classification (color branches and legend). -/
def classifyAccuracy (a : Nat) : EstimateClass :=
  if 80 ≤ a ∧ a ≤ 120 then .good
  else if a < 80 then .underestimated
  else .overestimated

/-! ## Invariant, initial state, and claim-side definitions -/

/-- `defaultSettings.timer` from `src/store/index.ts` (lines 80–95). -/
def defaultSettings : TimerSettings :=
  { workDuration := 25
    shortBreakDuration := 5
    longBreakDuration := 15
    longBreakInterval := 4
    autoStartBreaks := false
    autoStartWork := false }

/-- The initial store state (`src/store/index.ts` lines 103–109, 296, 361,
384): Idle, Work mode, `25 * 60` seconds remaining, no anchor, no tasks, no
sessions. -/
def initialState : AppState :=
  { status := .idle
    mode := .work
    remainingSeconds := 25 * 60
    currentTaskId := none
    pomodorosInSession := 0
    startTime := none
    totalDuration := 25 * 60
    settings := defaultSettings
    tasks := []
    sessions := [] }

/-- The timer-state invariant of the spec: the anchor is non-null exactly when
the status is Running, and `remainingSeconds` stays within `[0, totalDuration]`. -/
def TimerInvariant (st : AppState) : Prop :=
  (st.startTime ≠ none ↔ st.status = .running) ∧
  0 ≤ st.remainingSeconds ∧ st.remainingSeconds ≤ st.totalDuration

/-- The two trigger-driven recomputations, for stating idempotence of
`tick`/`syncTimer` sequences. -/
inductive RecomputeOp where
  | tickOp
  | syncOp
deriving DecidableEq, Repr

/-- Run one recomputation trigger. -/
def applyRecompute (op : RecomputeOp) (st : AppState) (now : Int) : AppState :=
  match op with
  | .tickOp => tick st now
  | .syncOp => syncTimer st now

/-- Run a sequence of recomputation triggers, all at the same wall-clock
instant. -/
def applyRecomputes (ops : List RecomputeOp) (st : AppState) (now : Int) : AppState :=
  ops.foldl (fun s op => applyRecompute op s now) st

/-- Iterate `completePomodoro` (with a fixed clock and id) `n` times, for the
long-break cadence run. -/
def completeN : Nat → AppState → AppState
  | 0, st => st
  | n + 1, st => completePomodoro (completeN n st) 0 ""

/-- A task as written by the claim's words for the per-day aggregate: count of
distinct non-`null` task ids, with no further filtering. Stated from the claim
(`tasksCompleted = the number of distinct non-null taskIds among them`) for
comparison with `dayStatFor`. -/
def dayStatClaim (sessions : List TimerSession) (now : Int) (i : Nat) : DailyStats :=
  let date := subDays now i
  let daySessions := sessions.filter (fun s =>
    s.wasCompleted && s.mode == TimerMode.work &&
      isWithinInterval s.startedAt (startOfDay date) (endOfDay date))
  { date := dayNumber date
    completedPomodoros := daySessions.length
    totalWorkMinutes := jsRoundDiv (daySessions.map (·.duration)).sum 60
    tasksCompleted := ((daySessions.map (·.taskId)).filterMap id).dedup.length }

/-- The daily stats exactly as the claim words them: one entry per calendar
day for the last `days` days including today, ordered oldest-first, each entry
aggregating that day's completed Work sessions with distinct non-null task-id
count. -/
def dailyStatsClaim (sessions : List TimerSession) (now : Int) (days : Nat) :
    List DailyStats :=
  (List.range days).reverse.map (dayStatClaim sessions now)

/-- The amended per-day aggregate: distinct non-null, non-empty task ids
(the empty string is falsy in JS and is dropped by `filter(Boolean)`). -/
def dayStatAmended (sessions : List TimerSession) (now : Int) (i : Nat) : DailyStats :=
  let date := subDays now i
  let daySessions := sessions.filter (fun s =>
    s.wasCompleted && s.mode == TimerMode.work &&
      isWithinInterval s.startedAt (startOfDay date) (endOfDay date))
  { date := dayNumber date
    completedPomodoros := daySessions.length
    totalWorkMinutes := jsRoundDiv (daySessions.map (·.duration)).sum 60
    tasksCompleted :=
      (((daySessions.map (·.taskId)).filterMap id).filter (fun s => s ≠ "")).dedup.length }

/-- The amended claim for the daily stats, oldest-first over the last `days`
days. -/
def dailyStatsAmended (sessions : List TimerSession) (now : Int) (days : Nat) :
    List DailyStats :=
  (List.range days).reverse.map (dayStatAmended sessions now)

/-- A task in each status with distinct ids, for concrete runs. -/
def sampleTask : Task :=
  { id := "t1"
    title := "write report"
    description := ""
    estimatedPomodoros := 4
    completedPomodoros := 5
    status := .completed
    createdAt := 0
    completedAt := some 1000
    order := 0 }

/-!
# Theorems settling the claims
-/

/-- C10. Every call to `completePomodoro` appends exactly one session record
(`sessionRecord`), and that record has `wasCompleted = true`, the full
configured duration of the ended mode, and `startedAt = completedAt` minus
that duration (in milliseconds) — independent of the actual wall-clock span of
the interval. -/
theorem completePomodoro_appends_full_session (st : AppState) (now : Int) (newId : String) :
    (completePomodoro st now newId).sessions = st.sessions ++ [sessionRecord st now newId] ∧
    (sessionRecord st now newId).wasCompleted = true ∧
    (sessionRecord st now newId).duration = getDurationForMode st.mode st.settings ∧
    (sessionRecord st now newId).completedAt = now ∧
    (sessionRecord st now newId).startedAt =
      (sessionRecord st now newId).completedAt -
        ((sessionRecord st now newId).duration : Int) * 1000 := by
  refine ⟨?_, rfl, rfl, rfl, rfl⟩
  unfold completePomodoro
  by_cases h : st.mode = .work <;> simp [h]

/-- C6 counterexample. `pauseTimer` invoked on the Idle initial state is not a
no-op: the state changes (its status becomes Paused). -/
theorem pauseTimer_idle_changes_state :
    pauseTimer initialState 0 ≠ initialState := by decide

/-- C6 amended. `pauseTimer` invoked while the status is not Running does not
recompute `remainingSeconds`: every field is unchanged except that the status
is unconditionally set to Paused and the anchor cleared (a harmless non-strict
no-op rather than an identity). -/
theorem pauseTimer_not_running (st : AppState) (now : Int)
    (h : st.status ≠ .running) :
    pauseTimer st now = { st with status := .paused, startTime := none } := by
  unfold pauseTimer
  cases hs : st.startTime with
  | none => rfl
  | some s => simp [h]

/-- C6 amended, witness at the Idle initial state. -/
theorem pauseTimer_not_running_witness :
    initialState.status ≠ .running ∧
    pauseTimer initialState 0 = { initialState with status := .paused, startTime := none } :=
  ⟨by decide, pauseTimer_not_running initialState 0 (by decide)⟩

/-- C7 counterexample. `startTimer` invoked while already Running is not a
no-op: it re-anchors `startTime` to the current instant. -/
theorem startTimer_running_changes_state :
    startTimer (startTimer initialState 1000) 5000 ≠ startTimer initialState 1000 := by
  decide

/-- C7 amended. `startTimer` invoked while already Running leaves the status,
mode, `remainingSeconds`, task assignment and counters unchanged, but
re-anchors: `startTime` becomes the current instant and `totalDuration`
becomes the current `remainingSeconds`. -/
theorem startTimer_running_reanchors (st : AppState) (now : Int)
    (h : st.status = .running) :
    startTimer st now =
      { st with startTime := some now, totalDuration := st.remainingSeconds } := by
  unfold startTimer
  rw [← h]

/-- C7 amended, witness at a concrete Running state. -/
theorem startTimer_running_reanchors_witness :
    (startTimer initialState 1000).status = .running ∧
    startTimer (startTimer initialState 1000) 5000 =
      { startTimer initialState 1000 with
        startTime := some 5000
        totalDuration := (startTimer initialState 1000).remainingSeconds } :=
  ⟨by decide, startTimer_running_reanchors (startTimer initialState 1000) 5000 (by decide)⟩

/-- C3. Long-break cadence: after a Work completion the Mode becomes LongBreak
exactly when the incremented cycle counter is a positive multiple of
`longBreakInterval` (ShortBreak otherwise) and the counter is incremented;
from the initial state with interval 4 the first eight modes are
Work→ShortBreak→Work→ShortBreak→Work→ShortBreak→Work→LongBreak; and the
`completePomodoro` call that ends a LongBreak resets the counter to 0. -/
theorem longBreak_cadence :
    (∀ (st : AppState) (now : Int) (newId : String), st.mode = .work →
      (((completePomodoro st now newId).mode = .longBreak ↔
          0 < st.pomodorosInSession + 1 ∧
            (st.pomodorosInSession + 1) % st.settings.longBreakInterval = 0) ∧
        ((completePomodoro st now newId).mode = .shortBreak ↔
          ¬ (st.pomodorosInSession + 1) % st.settings.longBreakInterval = 0) ∧
        (completePomodoro st now newId).pomodorosInSession = st.pomodorosInSession + 1)) ∧
    ((List.range 8).map (fun n => (completeN n initialState).mode) =
      [.work, .shortBreak, .work, .shortBreak, .work, .shortBreak, .work, .longBreak]) ∧
    (completeN 8 initialState).pomodorosInSession = 0 ∧
    (∀ (st : AppState) (now : Int) (newId : String), st.mode = .longBreak →
      (completePomodoro st now newId).pomodorosInSession = 0) := by
  refine ⟨?_, by decide, by decide, ?_⟩
  · intro st now newId h
    unfold completePomodoro
    by_cases hl : (st.pomodorosInSession + 1) % st.settings.longBreakInterval = 0 <;>
      simp [h, hl]
  · intro st now newId h
    unfold completePomodoro
    simp [h]

/-- C3, witness: the general cadence facts applied at the initial state (a
Work completion) and at a LongBreak state. -/
theorem longBreak_cadence_witness :
    ((((completePomodoro initialState 0 "").mode = .longBreak ↔
        0 < initialState.pomodorosInSession + 1 ∧
          (initialState.pomodorosInSession + 1) % initialState.settings.longBreakInterval = 0) ∧
      ((completePomodoro initialState 0 "").mode = .shortBreak ↔
        ¬ (initialState.pomodorosInSession + 1) % initialState.settings.longBreakInterval = 0) ∧
      (completePomodoro initialState 0 "").pomodorosInSession =
        initialState.pomodorosInSession + 1)) ∧
    (completePomodoro (setMode initialState .longBreak) 0 "").pomodorosInSession = 0 :=
  ⟨longBreak_cadence.1 initialState 0 "" (by decide),
    longBreak_cadence.2.2.2 (setMode initialState .longBreak) 0 "" (by decide)⟩

/-- C5. Estimate accuracy: every entry of `tasksWithAccuracy` comes from a
completed task with a positive completed-pomodoro count and carries
`accuracy = round(estimated / completed * 100)` capped at 200 after rounding
and `overUnder = completed - estimated`; the concrete 4-estimated /
5-completed task yields accuracy 80 and overUnder 1; and the classification is
good on [80, 120], underestimated below 80, overestimated above 120. -/
theorem estimate_accuracy :
    (∀ (tasks : List Task) (tw : TaskWithAccuracy), tw ∈ tasksWithAccuracy tasks →
      tw.task.status = .completed ∧ 0 < tw.task.completedPomodoros ∧
      tw.accuracy =
        min (accuracyPercent tw.task.estimatedPomodoros tw.task.completedPomodoros) 200 ∧
      tw.overUnder =
        (tw.task.completedPomodoros : Int) - (tw.task.estimatedPomodoros : Int)) ∧
    accuracyPercent 4 5 = 80 ∧
    tasksWithAccuracy [sampleTask] = [{ task := sampleTask, accuracy := 80, overUnder := 1 }] ∧
    (∀ a : Nat,
      (classifyAccuracy a = .good ↔ 80 ≤ a ∧ a ≤ 120) ∧
      (classifyAccuracy a = .underestimated ↔ a < 80) ∧
      (classifyAccuracy a = .overestimated ↔ 120 < a)) := by
  refine ⟨?_, by decide, ?_, ?_⟩
  · intro tasks tw hmem
    simp only [tasksWithAccuracy] at hmem
    have hsorted := List.mem_of_mem_take hmem
    have hmap := (List.mergeSort_perm _ _).mem_iff.mp hsorted
    rcases List.mem_map.mp hmap with ⟨t, ht, rfl⟩
    rcases List.mem_filter.mp ht with ⟨ht1, ht2⟩
    rcases List.mem_filter.mp ht1 with ⟨_, ht3⟩
    refine ⟨by simpa using ht3, by simpa using ht2, rfl, rfl⟩
  · simp [tasksWithAccuracy, sampleTask, accuracyPercent, jsRoundDiv]
  · intro a
    unfold classifyAccuracy
    split_ifs with h1 h2 <;> refine ⟨?_, ?_, ?_⟩ <;> simp <;> omega

/-- C5, witness: the pointwise accuracy facts applied to the sample task's
entry, and the classification at the boundary value 80. -/
theorem estimate_accuracy_witness :
    (({ task := sampleTask, accuracy := 80, overUnder := 1 } : TaskWithAccuracy).task.status
        = .completed ∧
      0 < ({ task := sampleTask, accuracy := 80, overUnder := 1 } : TaskWithAccuracy).task.completedPomodoros ∧
      ({ task := sampleTask, accuracy := 80, overUnder := 1 } : TaskWithAccuracy).accuracy =
        min (accuracyPercent
          ({ task := sampleTask, accuracy := 80, overUnder := 1 } : TaskWithAccuracy).task.estimatedPomodoros
          ({ task := sampleTask, accuracy := 80, overUnder := 1 } : TaskWithAccuracy).task.completedPomodoros) 200 ∧
      ({ task := sampleTask, accuracy := 80, overUnder := 1 } : TaskWithAccuracy).overUnder =
        (({ task := sampleTask, accuracy := 80, overUnder := 1 } : TaskWithAccuracy).task.completedPomodoros : Int) -
          (({ task := sampleTask, accuracy := 80, overUnder := 1 } : TaskWithAccuracy).task.estimatedPomodoros : Int)) ∧
    (classifyAccuracy 80 = .good ↔ 80 ≤ 80 ∧ 80 ≤ 120) :=
  ⟨estimate_accuracy.1 [sampleTask] { task := sampleTask, accuracy := 80, overUnder := 1 }
      (by rw [estimate_accuracy.2.2.1]; exact List.mem_singleton_self _),
    (estimate_accuracy.2.2.2 80).1⟩

/-- Helper invariant for the recomputation triggers: once one trigger has run
at instant `now` against anchor `s` and total `T`, the remaining seconds are
pinned to `max 0 (T - elapsedSeconds now s)`, the total is unchanged, and the
anchor is still `s` whenever the timer is still running. -/
def RecomputePinned (T s now : Int) (st : AppState) : Prop :=
  st.remainingSeconds = max 0 (T - elapsedSeconds now s) ∧
  st.totalDuration = T ∧
  (st.status = .running → st.startTime = some s)

lemma recompute_first (op : RecomputeOp) (st : AppState) (now s : Int)
    (hrun : st.status = .running) (hanchor : st.startTime = some s) :
    RecomputePinned st.totalDuration s now (applyRecompute op st now) := by
  cases op with
  | tickOp =>
      unfold applyRecompute tick
      by_cases hpos : max 0 (st.totalDuration - elapsedSeconds now s) > 0 <;>
        simp [hrun, hanchor, hpos, RecomputePinned] <;> omega
  | syncOp =>
      unfold applyRecompute syncTimer
      simp [hrun, hanchor, RecomputePinned]

lemma recompute_next (op : RecomputeOp) (st : AppState) (T s now : Int)
    (h : RecomputePinned T s now st) :
    RecomputePinned T s now (applyRecompute op st now) := by
  obtain ⟨h1, h2, h3⟩ := h
  by_cases hrun : st.status = .running
  · have hst := h3 hrun
    have := recompute_first op st now s hrun hst
    rw [h2] at this
    obtain ⟨g1, g2, g3⟩ := this
    exact ⟨g1, g2, g3⟩
  · cases op with
    | tickOp =>
        unfold applyRecompute tick
        simp [hrun]
        exact ⟨h1, h2, h3⟩
    | syncOp =>
        unfold applyRecompute syncTimer
        simp [hrun]
        exact ⟨h1, h2, h3⟩

lemma recompute_fold (ops : List RecomputeOp) (st : AppState) (T s now : Int)
    (h : RecomputePinned T s now st) :
    RecomputePinned T s now (applyRecomputes ops st now) := by
  induction ops generalizing st with
  | nil => exact h
  | cons op rest ih => exact ih _ (recompute_next op st T s now h)

/-- C1. Idempotent recomputation: from any Running state with anchor `s`, any
non-empty sequence of `tick` / `syncTimer` calls, in any order, all at the
same wall-clock instant, leaves `remainingSeconds` at the same value — the
pure function `max 0 (totalDuration - elapsedSeconds now s)` of the clock, the
anchor and the total duration. -/
theorem tick_sync_idempotent (st : AppState) (now s : Int)
    (hrun : st.status = .running) (hanchor : st.startTime = some s)
    (ops : List RecomputeOp) (hne : ops ≠ []) :
    (applyRecomputes ops st now).remainingSeconds =
      max 0 (st.totalDuration - elapsedSeconds now s) := by
  cases ops with
  | nil => exact absurd rfl hne
  | cons op rest =>
      have h0 := recompute_first op st now s hrun hanchor
      have h1 := recompute_fold rest (applyRecompute op st now)
        st.totalDuration s now h0
      have : applyRecomputes (op :: rest) st now =
          applyRecomputes rest (applyRecompute op st now) now := rfl
      rw [this]
      exact h1.1

/-- C1, witness: a tick–sync–tick burst on a freshly started timer, all at
instant 0, pins the remaining seconds at the full 1500. -/
theorem tick_sync_idempotent_witness :
    (applyRecomputes [RecomputeOp.tickOp, RecomputeOp.syncOp, RecomputeOp.tickOp]
        (startTimer initialState 0) 0).remainingSeconds =
      max 0 ((startTimer initialState 0).totalDuration - elapsedSeconds 0 0) :=
  tick_sync_idempotent (startTimer initialState 0) 0 0 (by decide) (by decide)
    [RecomputeOp.tickOp, RecomputeOp.syncOp, RecomputeOp.tickOp] (by decide)

lemma elapsedSeconds_monotone {t1 t2 s : Int} (h : t1 ≤ t2) :
    elapsedSeconds t1 s ≤ elapsedSeconds t2 s := by
  unfold elapsedSeconds
  rw [Int.fdiv_eq_ediv _ (by norm_num), Int.fdiv_eq_ediv _ (by norm_num)]
  exact Int.ediv_le_ediv (by norm_num) (by omega)

/-- C8. Monotonic countdown: in a Running state whose `remainingSeconds` was
produced by the anchor recomputation at some earlier instant `t1` (every
reachable Running state is of this form), a `tick` at `now ≥ t1` can only
decrease `remainingSeconds`, and never below zero. -/
theorem tick_monotone (st : AppState) (now t1 s : Int)
    (hrun : st.status = .running) (hanchor : st.startTime = some s)
    (hrem : st.remainingSeconds = max 0 (st.totalDuration - elapsedSeconds t1 s))
    (hclock : t1 ≤ now) :
    (tick st now).remainingSeconds ≤ st.remainingSeconds ∧
    0 ≤ (tick st now).remainingSeconds := by
  have hmono := elapsedSeconds_monotone (s := s) hclock
  unfold tick
  by_cases hpos : max 0 (st.totalDuration - elapsedSeconds now s) > 0 <;>
    simp [hrun, hanchor, hpos] <;> omega

/-- C8, witness: a timer started at instant 0 and last recomputed at instant
2000 does not gain time from a tick at instant 5000. -/
theorem tick_monotone_witness :
    (tick (syncTimer (startTimer initialState 0) 2000) 5000).remainingSeconds ≤
      (syncTimer (startTimer initialState 0) 2000).remainingSeconds ∧
    0 ≤ (tick (syncTimer (startTimer initialState 0) 2000) 5000).remainingSeconds :=
  tick_monotone (syncTimer (startTimer initialState 0) 2000) 5000 2000 0
    (by decide) (by decide) (by decide) (by decide)

lemma elapsedSeconds_nonneg {now s : Int} (h : s ≤ now) : 0 ≤ elapsedSeconds now s := by
  unfold elapsedSeconds
  rw [Int.fdiv_eq_ediv _ (by norm_num)]
  exact Int.ediv_nonneg (by omega) (by norm_num)

lemma inv_startTimer (st : AppState) (now : Int) (h : TimerInvariant st) :
    TimerInvariant (startTimer st now) := by
  exact ⟨by simp [startTimer], h.2.1, le_refl _⟩

lemma inv_pauseTimer (st : AppState) (now : Int) (h : TimerInvariant st)
    (hnow : ∀ s0, st.startTime = some s0 → s0 ≤ now) :
    TimerInvariant (pauseTimer st now) := by
  obtain ⟨h1, h2, h3⟩ := h
  cases hst : st.startTime with
  | none =>
      have heq : pauseTimer st now = { st with status := .paused, startTime := none } := by
        unfold pauseTimer
        rw [hst]
      rw [heq]
      exact ⟨by simp, h2, h3⟩
  | some s =>
      have hrunning : st.status = .running := h1.mp (by simp [hst])
      have he := elapsedSeconds_nonneg (hnow s hst)
      have heq : pauseTimer st now =
          { st with
            remainingSeconds := max 0 (st.totalDuration - elapsedSeconds now s)
            status := .paused
            startTime := none } := by
        unfold pauseTimer
        rw [hst]
        simp [hrunning]
      rw [heq]
      refine ⟨by simp, le_max_left _ _, ?_⟩
      show max 0 (st.totalDuration - elapsedSeconds now s) ≤ st.totalDuration
      exact max_le (by omega) (by omega)

lemma inv_resetTimer (st : AppState) (_h : TimerInvariant st) :
    TimerInvariant (resetTimer st) := by
  refine ⟨by simp [resetTimer], by simp [resetTimer], by simp [resetTimer]⟩

lemma inv_tick (st : AppState) (now : Int) (h : TimerInvariant st)
    (hnow : ∀ s0, st.startTime = some s0 → s0 ≤ now) :
    TimerInvariant (tick st now) := by
  obtain ⟨h1, h2, h3⟩ := h
  by_cases hrun : st.status = .running
  · cases hst : st.startTime with
    | none => exact absurd hst (h1.mpr hrun)
    | some s =>
        have he := elapsedSeconds_nonneg (hnow s hst)
        by_cases hpos : max 0 (st.totalDuration - elapsedSeconds now s) > 0
        · have heq : tick st now =
              { st with remainingSeconds := max 0 (st.totalDuration - elapsedSeconds now s) } := by
            unfold tick
            rw [hst]
            simp [hrun, hpos]
          rw [heq]
          refine ⟨?_, le_max_left _ _, ?_⟩
          · show st.startTime ≠ none ↔ st.status = .running
            exact h1
          · show max 0 (st.totalDuration - elapsedSeconds now s) ≤ st.totalDuration
            exact max_le (by omega) (by omega)
        · have heq : tick st now =
              { st with remainingSeconds := 0, status := .idle, startTime := none } := by
            unfold tick
            rw [hst]
            simp [hrun, hpos]
          rw [heq]
          refine ⟨by simp, le_refl 0, ?_⟩
          show (0 : Int) ≤ st.totalDuration
          omega
  · have heq : tick st now = st := by
      unfold tick
      simp [hrun]
    rw [heq]
    exact ⟨h1, h2, h3⟩

lemma inv_syncTimer (st : AppState) (now : Int) (h : TimerInvariant st)
    (hnow : ∀ s0, st.startTime = some s0 → s0 ≤ now) :
    TimerInvariant (syncTimer st now) := by
  obtain ⟨h1, h2, h3⟩ := h
  by_cases hrun : st.status = .running
  · cases hst : st.startTime with
    | none => exact absurd hst (h1.mpr hrun)
    | some s =>
        have he := elapsedSeconds_nonneg (hnow s hst)
        have heq : syncTimer st now =
            { st with remainingSeconds := max 0 (st.totalDuration - elapsedSeconds now s) } := by
          unfold syncTimer
          rw [hst]
          simp [hrun]
        rw [heq]
        refine ⟨?_, le_max_left _ _, ?_⟩
        · show st.startTime ≠ none ↔ st.status = .running
          exact h1
        · show max 0 (st.totalDuration - elapsedSeconds now s) ≤ st.totalDuration
          exact max_le (by omega) (by omega)
  · have heq : syncTimer st now = st := by
      unfold syncTimer
      simp [hrun]
    rw [heq]
    exact ⟨h1, h2, h3⟩

lemma inv_setMode (st : AppState) (m : TimerMode) (_h : TimerInvariant st) :
    TimerInvariant (setMode st m) := by
  refine ⟨by simp [setMode], by simp [setMode], by simp [setMode]⟩

lemma inv_assignTask (st : AppState) (taskId : Option String) (h : TimerInvariant st) :
    TimerInvariant (assignTask st taskId) := by
  exact ⟨by simpa [assignTask] using h.1, h.2.1, h.2.2⟩

lemma inv_completePomodoro (st : AppState) (now : Int) (newId : String)
    (_h : TimerInvariant st) : TimerInvariant (completePomodoro st now newId) := by
  unfold completePomodoro
  by_cases hw : st.mode = .work
  · by_cases hauto : st.settings.autoStartBreaks <;>
      exact ⟨by simp [hw, hauto], by simp [hw, hauto], by simp [hw, hauto]⟩
  · by_cases hauto : st.settings.autoStartWork <;>
      exact ⟨by simp [hw, hauto], by simp [hw, hauto], by simp [hw, hauto]⟩

/-- C2. Every timer operation preserves the timer-state invariant — the anchor
is non-null iff the status is Running, and `0 ≤ remainingSeconds ≤
totalDuration` — provided the wall clock read during the operation is not
earlier than the stored anchor. -/
theorem timer_invariant_preserved (st : AppState) (now : Int) (newId : String)
    (hInv : TimerInvariant st)
    (hnow : ∀ s0, st.startTime = some s0 → s0 ≤ now) :
    TimerInvariant (startTimer st now) ∧
    TimerInvariant (pauseTimer st now) ∧
    TimerInvariant (resetTimer st) ∧
    TimerInvariant (tick st now) ∧
    TimerInvariant (syncTimer st now) ∧
    (∀ m : TimerMode, TimerInvariant (setMode st m)) ∧
    TimerInvariant (completePomodoro st now newId) ∧
    (∀ taskId : Option String, TimerInvariant (assignTask st taskId)) :=
  ⟨inv_startTimer st now hInv,
    inv_pauseTimer st now hInv hnow,
    inv_resetTimer st hInv,
    inv_tick st now hInv hnow,
    inv_syncTimer st now hInv hnow,
    fun m => inv_setMode st m hInv,
    inv_completePomodoro st now newId hInv,
    fun taskId => inv_assignTask st taskId hInv⟩

/-- C2, witness: the invariant is preserved by every operation at the initial
state with the clock at 0. -/
theorem timer_invariant_preserved_witness :
    TimerInvariant (startTimer initialState 0) ∧
    TimerInvariant (pauseTimer initialState 0) ∧
    TimerInvariant (resetTimer initialState) ∧
    TimerInvariant (tick initialState 0) ∧
    TimerInvariant (syncTimer initialState 0) ∧
    (∀ m : TimerMode, TimerInvariant (setMode initialState m)) ∧
    TimerInvariant (completePomodoro initialState 0 "") ∧
    (∀ taskId : Option String, TimerInvariant (assignTask initialState taskId)) :=
  timer_invariant_preserved initialState 0 ""
    ⟨by decide, by decide, by decide⟩
    (fun s0 h => Option.noConfusion h)

/-- Forget the `order` field (set it to a fixed value), to compare task lists
up to renumbering. -/
def stripOrder (t : Task) : Task := { t with order := 0 }

lemma spliceIndex_le (i : Int) (len : Nat) : spliceIndex i len ≤ len := by
  unfold spliceIndex
  split_ifs with h
  · omega
  · exact min_le_right _ _

lemma enumFrom_renumber_strip (l : List Task) (n : Nat) :
    ((List.enumFrom n l).map (fun p => { p.2 with order := (p.1 : Int) })).map stripOrder =
      l.map stripOrder := by
  induction l generalizing n with
  | nil => rfl
  | cons x xs ih =>
      have hx : stripOrder { x with order := (n : Int) } = stripOrder x := rfl
      simp only [List.enumFrom_cons, List.map_cons, hx, ih]

lemma enumFrom_renumber_orders (l : List Task) (n : Nat) :
    ((List.enumFrom n l).map (fun p => { p.2 with order := (p.1 : Int) })).map
        (fun t => t.order) =
      (List.range' n l.length).map (fun k : Nat => (k : Int)) := by
  induction l generalizing n with
  | nil => rfl
  | cons x xs ih =>
      simp only [List.enumFrom_cons, List.map_cons, List.length_cons, List.range'_succ,
        ih]

lemma renumberOrders_map_stripOrder (l : List Task) :
    (renumberOrders l).map stripOrder = l.map stripOrder :=
  enumFrom_renumber_strip l 0

lemma renumberOrders_orders (l : List Task) :
    (renumberOrders l).map (fun t => t.order) =
      (List.range l.length).map (fun n : Nat => (n : Int)) := by
  rw [List.range_eq_range']
  exact enumFrom_renumber_orders l 0

lemma insertIdx_eraseIdx_perm (tasks : List Task) (s e : Nat) (h : s < tasks.length)
    (he : e ≤ (tasks.eraseIdx s).length) :
    List.Perm ((tasks.eraseIdx s).insertIdx e (tasks.get ⟨s, h⟩)) tasks := by
  refine (List.perm_insertIdx _ _ he).trans ?_
  rw [List.eraseIdx_eq_take_drop_succ]
  refine List.perm_middle.symm.trans ?_
  have hx : tasks.get ⟨s, h⟩ :: tasks.drop (s + 1) = tasks.drop s := by
    rw [List.get_eq_getElem]
    exact List.getElem_cons_drop tasks s h
  rw [hx, List.take_append_drop]

/-- C9 amended. `reorderTasks` produces a valid next state whenever the start
index resolves (with JS splice clamping) to an existing element: the result is
the same tasks up to the `order` field (a permutation — one positional move),
with `order` renumbered 0-based and contiguous. When the start index resolves
past the end (`startIndex ≥ length`, or an empty list), `splice` removes
nothing and the subsequent renumbering of the inserted `undefined` throws,
modelled as `Except.error ()` — the operation is not total. -/
theorem reorderTasks_moves_and_renumbers :
    (∀ (tasks : List Task) (startIndex endIndex : Int),
      spliceIndex startIndex tasks.length < tasks.length →
      ∃ l, reorderTasks tasks startIndex endIndex = .ok l ∧
        List.Perm (l.map stripOrder) (tasks.map stripOrder) ∧
        l.map (fun t => t.order) = (List.range tasks.length).map (fun n : Nat => (n : Int))) ∧
    (∀ (tasks : List Task) (startIndex endIndex : Int),
      ¬ spliceIndex startIndex tasks.length < tasks.length →
      reorderTasks tasks startIndex endIndex = .error ()) := by
  constructor
  · intro tasks startIndex endIndex h
    have hok : reorderTasks tasks startIndex endIndex =
        .ok (renumberOrders
          ((tasks.eraseIdx (spliceIndex startIndex tasks.length)).insertIdx
            (spliceIndex endIndex (tasks.eraseIdx (spliceIndex startIndex tasks.length)).length)
            (tasks.get ⟨spliceIndex startIndex tasks.length, h⟩))) := by
      simp only [reorderTasks]
      rw [dif_pos h]
    have he := spliceIndex_le endIndex
      (tasks.eraseIdx (spliceIndex startIndex tasks.length)).length
    have hperm := insertIdx_eraseIdx_perm tasks (spliceIndex startIndex tasks.length)
      (spliceIndex endIndex (tasks.eraseIdx (spliceIndex startIndex tasks.length)).length) h he
    refine ⟨_, hok, ?_, ?_⟩
    · rw [renumberOrders_map_stripOrder]
      exact hperm.map stripOrder
    · rw [renumberOrders_orders]
      have hlen : ((tasks.eraseIdx (spliceIndex startIndex tasks.length)).insertIdx
          (spliceIndex endIndex (tasks.eraseIdx (spliceIndex startIndex tasks.length)).length)
          (tasks.get ⟨spliceIndex startIndex tasks.length, h⟩)).length = tasks.length := by
        rw [List.length_insertIdx _ _ he]
        rw [List.length_eraseIdx]
        simp [h]
        omega
      rw [hlen]
  · intro tasks startIndex endIndex h
    simp only [reorderTasks]
    rw [dif_neg h]

/-- C9 counterexample. `reorderTasks` does not always produce a valid next
state: on an empty task list (with indices 0, 0) the splice removes nothing
and the renumbering throws — the model returns an error, not a state. -/
theorem reorderTasks_error_on_empty :
    reorderTasks ([] : List Task) 0 0 = .error () := rfl

/-- C9 amended, witness: moving index 2 to index 0 in a three-task list
succeeds, permutes the tasks and renumbers the orders to 0, 1, 2; and an
out-of-range start errors. -/
theorem reorderTasks_moves_and_renumbers_witness :
    (∃ l, reorderTasks [sampleTask, { sampleTask with id := "t2" },
        { sampleTask with id := "t3" }] 2 0 = .ok l ∧
      List.Perm (l.map stripOrder)
        ([sampleTask, { sampleTask with id := "t2" },
          { sampleTask with id := "t3" }].map stripOrder) ∧
      l.map (fun t => t.order) =
        (List.range ([sampleTask, { sampleTask with id := "t2" },
          { sampleTask with id := "t3" }] : List Task).length).map (fun n : Nat => (n : Int))) ∧
    reorderTasks [sampleTask] 5 0 = .error () :=
  ⟨reorderTasks_moves_and_renumbers.1
      [sampleTask, { sampleTask with id := "t2" }, { sampleTask with id := "t3" }] 2 0
      (by decide),
    reorderTasks_moves_and_renumbers.2 [sampleTask] 5 0 (by decide)⟩

/-- The concrete daily-stats scenario of the spec, on the abstract calendar:
two completed 1500-second Work sessions (09:00 and 14:00) and one completed
300-second ShortBreak session (09:30), all on day 0. -/
def scenarioSessions : List TimerSession :=
  [ { id := "s1", mode := .work, taskId := none, startedAt := 32400000,
      completedAt := 33900000, duration := 1500, wasCompleted := true },
    { id := "s2", mode := .work, taskId := none, startedAt := 50400000,
      completedAt := 51900000, duration := 1500, wasCompleted := true },
    { id := "s3", mode := .shortBreak, taskId := none, startedAt := 34200000,
      completedAt := 34500000, duration := 300, wasCompleted := true } ]

/-- 17:00 on day 0 of the abstract calendar. -/
def scenarioNow : Int := 61200000

lemma truthyStrings_eq_filter (l : List (Option String)) :
    truthyStrings l = (l.filterMap id).filter (fun s => s ≠ "") := by
  induction l with
  | nil => rfl
  | cons x xs ih =>
      cases x with
      | none => simpa [truthyStrings] using ih
      | some s =>
          by_cases hs : s = "" <;>
            simp [truthyStrings, List.filterMap_cons, hs] <;>
            simpa [truthyStrings] using ih

lemma dayStatFor_eq_amended (sessions : List TimerSession) (now : Int) (i : Nat) :
    dayStatFor sessions now i = dayStatAmended sessions now i := by
  simp only [dayStatFor, dayStatAmended, truthyStrings_eq_filter]

/-- C4 amended. `getDailyStats(days)` returns one entry per calendar day for
the last `days` days including today, ordered oldest-first; each entry counts
only completed Work sessions that started within that day's bounds, with the
session count, `round(total seconds / 60)` work minutes, and the number of
distinct non-null, non-empty task ids (JS `filter(Boolean)` also drops the
falsy empty string). The spec's concrete one-day scenario yields
`{completedPomodoros: 2, totalWorkMinutes: 50, tasksCompleted: 0}`. -/
theorem getDailyStats_amended :
    (∀ (sessions : List TimerSession) (now : Int) (days : Nat),
      getDailyStats sessions now days = dailyStatsAmended sessions now days) ∧
    getDailyStats scenarioSessions scenarioNow 1 =
      [{ date := 0, completedPomodoros := 2, totalWorkMinutes := 50, tasksCompleted := 0 }] := by
  constructor
  · intro sessions now days
    unfold getDailyStats dailyStatsAmended
    have hfun : dayStatFor sessions now = dayStatAmended sessions now :=
      funext (fun i => dayStatFor_eq_amended sessions now i)
    rw [hfun, List.map_reverse]
  · decide

/-- C4 counterexample. A completed Work session whose `taskId` is the empty
string: the claim's "distinct non-null taskIds" counts it (1), but the code's
`filter(Boolean)` drops the falsy empty string and reports 0. -/
theorem getDailyStats_empty_taskId_counterexample :
    (getDailyStats
        [{ id := "s1", mode := .work, taskId := some "", startedAt := 1000,
           completedAt := 2000, duration := 1500, wasCompleted := true }] 0 1).map
        (fun d => d.tasksCompleted) = [0] ∧
    (dailyStatsClaim
        [{ id := "s1", mode := .work, taskId := some "", startedAt := 1000,
           completedAt := 2000, duration := 1500, wasCompleted := true }] 0 1).map
        (fun d => d.tasksCompleted) = [1] := by
  exact ⟨by decide, by decide⟩

end BrainWrangler
